import Mathlib

/-!
Shallow embedding of `youtube_dl/extractor/tv2.py`.

`TV2.resolve` embeds `TV2IE._real_extract` (the multi-protocol format
resolution for one asset) and `TV2.articleResolve` embeds
`TV2ArticleIE._real_extract` (the article-page playlist resolver).

External collaborators that live outside this repository slice (the generic
HTTP/JSON fetcher `_download_json`, the URL reachability pre-check
`_is_valid_url`, the HDS/HLS/DASH manifest expanders, the relaxed-JSON parser
`_parse_json`/`js_to_json`, and the regex scans of the raw page) are modelled
as components of an environment record: the embedding takes their results as
inputs, exactly as the source code consumes their return values.

Machine-level notes: all loop state (`formats`, `format_urls`, and the Python
local-variable bindings of `data` and `video_url`) is threaded explicitly;
Python locals that may be referenced before any assignment are `Option`-typed,
with `none` meaning "unbound", so that `UnboundLocalError` paths are visible.
-/

namespace TV2

/-- Split a character list at every occurrence of `c` (the list-of-characters
core of Python's `str.split(sep)` with a one-character separator: the empty
input yields one empty piece, adjacent separators yield empty pieces). -/
def splitOnChar (c : Char) : List Char → List (List Char)
  | [] => [[]]
  | x :: xs =>
    let r := splitOnChar c xs
    if x = c then [] :: r
    else
      match r with
      | [] => [x] :: []
      | y :: ys => (x :: y) :: ys

/-- Python `s.split(sep)` for a one-character separator. -/
def pySplitChar (sep : Char) (s : String) : List String :=
  (splitOnChar sep s.data).map (fun cs => String.mk cs)

/-- Python `s.endswith(t)`. -/
def pyEndsWith (s t : String) : Bool := t.data.isSuffixOf s.data

/-- ASCII lower-casing of one character (the protocol names fed to
`protocol.lower()` are plain ASCII). -/
def charLower (c : Char) : Char :=
  if 'A' ≤ c ∧ c ≤ 'Z' then Char.ofNat (c.toNat + 32) else c

/-- Python `s.lower()` on ASCII input. -/
def pyLower (s : String) : String := String.mk (s.data.map charLower)

/-- One candidate stream dict from `playback.items.item`: the four keys the
extractor reads (`url`, `mediaFormat`, `bitrate`, `fileSize`), each possibly
absent. `bitrate`/`fileSize` carry the value of `int_or_none` applied at the
boundary (external utility). -/
structure ItemDict where
  url : Option String
  mediaFormat : Option String
  bitrate : Option Int
  fileSize : Option Int
deriving Repr, DecidableEq

/-- A JSON entry of the item collection: either not a dict (skipped by the
`isinstance(item, dict)` test) or a dict. `truthy` records the Python
truthiness of the raw JSON value (e.g. `{}`, `0`, `""`, `null` are falsy),
which the source consults via `if not items` when the entry stands alone. -/
inductive PlayItem where
  | nonDict (truthy : Bool)
  | obj (truthy : Bool) (d : ItemDict)
deriving Repr, DecidableEq

/-- Python falsiness of an item value. -/
def PlayItem.falsy : PlayItem → Bool
  | .nonDict t => !t
  | .obj t _ => !t

/-- The value of `try_get(data, lambda x: x['items']['item'])`: absent (any
lookup failure gives `None`), a single JSON value, or a list of them. -/
inductive ItemsField where
  | absent
  | one (it : PlayItem)
  | many (its : List PlayItem)
deriving Repr, DecidableEq

/-- The `playback` object of one successful `play.json` response: the
`items.item` value and the truthiness of `data.get('drmProtected')`. -/
structure Playback where
  items : ItemsField
  drmProtected : Bool
deriving Repr, DecidableEq

/-- Lines 62-66: `items = try_get(...)`; `if not items: continue`;
`if not isinstance(items, list): items = [items]`.  The result is the list the
`for item in items` loop ranges over (empty when the protocol contributes no
items).  A falsy single value and the empty list both hit the
`if not items: continue` branch, so the loop body never runs for them. -/
def ingestItems : ItemsField → List PlayItem
  | .absent => []
  | .one it => if it.falsy then [] else [it]
  | .many its => its

/-- Modelled from the spec: `determine_ext` (`youtube_dl/utils.py`, not under
src/): "Classify by the candidate's file extension (derived from path,
ignoring query string)". The query string is cut at the first `?`; the
extension is the part after the last `.`; a dotless URL has no extension
(the utility's `unknown_video` default). -/
def determine_ext (url : String) : String :=
  let preQuery := (splitOnChar '?' url.data).headD url.data
  let parts := splitOnChar '.' preQuery
  if parts.length ≤ 1 then "unknown_video" else String.mk (parts.getLastD [])

/-- The parsed 401 error body's `error` object: `{error: {code, description}}`
with both keys possibly absent. -/
structure ErrorBody where
  code : Option String
  description : Option String
deriving Repr, DecidableEq

/-- Outcome of one `play.json` download (`_download_json`, external):
success with a `playback` object, an HTTP 401 whose body parsed to an
`error` object (`none` when the body is not such JSON, in which case the
fatal `_parse_json`/lookup failure propagates), or any other fetch failure
(tagged so that propagation can be observed to be unchanged). -/
inductive PlayFetch where
  | ok (pb : Playback)
  | http401 (body : Option ErrorBody)
  | failure (tag : String)
deriving Repr, DecidableEq

/-- The ways `_real_extract` can fail, mirroring the raise sites of the
source: `raise_geo_restricted`, `raise_login_required`, the DRM
`ExtractorError`, `raise ExtractorError(error['description'])`, a re-raised
(non-401) fetch error, a 401 whose body could not be handled, and uncaught
Python exceptions (`KeyError`/`UnboundLocalError`). -/
inductive ResolveError where
  | geoRestricted (countries : List String)
  | loginRequired
  | drmProtected
  | providerError (msg : String)
  | fetchFailure (tag : String)
  | badErrorBody
  | uncaughtPython (msg : String)
deriving Repr, DecidableEq

/-- Lines 53-60: the 401 handler.  `error.get('code')` selects geo /
login-required; any other code reaches
`raise ExtractorError(error['description'])` (a missing `description` key
there is an uncaught `KeyError`). -/
def classify401 (geoCountries : List String) : Option ErrorBody → ResolveError
  | none => .badErrorBody
  | some err =>
    if err.code = some "ASSET_PLAYBACK_INVALID_GEO_LOCATION" then
      .geoRestricted geoCountries
    else if err.code = some "SESSION_NOT_AUTHENTICATED" then
      .loginRequired
    else
      match err.description with
      | some d => .providerError d
      | none => .uncaughtPython "KeyError: description"

/-- One entry of the accumulated `formats` list: either the progressive
record built at lines 92-97 or an opaque record returned by a manifest
expander. -/
structure FormatRecord where
  url : Option String
  format_id : Option String
  tbr : Option Int
  filesize : Option Int
deriving Repr, DecidableEq

/-- One `(@type, url)` pair of the `imageVersions` mapping. -/
structure ImageVersion where
  atype : Option String
  url : Option String
deriving Repr, DecidableEq

/-- One entry of the returned `thumbnails` list (lines 107-110). -/
structure Thumbnail where
  id : Option String
  url : Option String
deriving Repr, DecidableEq

/-- The `asset` object of the metadata document (`{apiBase}.json` → `asset`).
`description`, `timestamp`, `duration` and `views` carry the values of the
external conversion utilities (`strip_or_none`, `parse_iso8601`,
`float_or_none`, `int_or_none`) applied at the boundary; `keywords` is the
raw keywords string, absent when the key is missing. -/
structure AssetDoc where
  title : Option String
  description : Option String
  imageVersions : Option (List ImageVersion)
  timestamp : Option Int
  duration : Option Int
  views : Option Int
  keywords : Option String
deriving Repr, DecidableEq

/-- The dict returned by `TV2IE._real_extract` (lines 112-123). `url` is the
final binding of the Python local `video_url` (possibly `None`). -/
structure AssetMetadata where
  id : String
  url : Option String
  title : String
  description : Option String
  thumbnails : List Thumbnail
  timestamp : Option Int
  duration : Option Int
  view_count : Option Int
  categories : List String
  formats : List FormatRecord
deriving Repr, DecidableEq

/-- The resolver's environment: the provider configuration of the class
(`_PROTOCOLS`, `_GEO_COUNTRIES`), and the external collaborators — the
per-protocol `play.json` fetch, `_is_valid_url` (deterministic reachability
pre-check; its extra logging arguments are irrelevant), the three manifest
expanders (`fatal=False`: a failed expansion is the empty list), and the
metadata-document fetch (`none` = fatal fetch failure). -/
structure Env where
  videoId : String
  protocols : List String
  geoCountries : List String
  playFetch : String → PlayFetch
  isValidUrl : String → Bool
  extractF4m : String → String → List FormatRecord
  extractM3u8 : String → String → List FormatRecord
  extractMpd : String → String → List FormatRecord
  metaFetch : Option AssetDoc

/-- Python `'%s' % v` rendering of an optional string value. -/
def optStr : Option String → String
  | none => "None"
  | some s => s

/-- The mutable state of the protocol loop: the two accumulator lists and the
current bindings of the Python locals `data` and `video_url` (`none` =
not yet assigned). -/
structure ResolveState where
  formats : List FormatRecord
  format_urls : List String
  data : Option Playback
  video_url : Option (Option String)
deriving Repr, DecidableEq

/-- Loop state before the first protocol: empty accumulators, both locals
unbound. -/
def initState : ResolveState := ⟨[], [], none, none⟩

/-- Lines 77-97: the `determine_ext` dispatch for one accepted candidate —
the list of formats the candidate contributes.  `f4m`/`mpd` delegate to the
expanders; `m3u8` delegates only when `data.get('drmProtected')` is falsy;
`ism` extension or a `.ism/Manifest` suffix contributes nothing; any other
extension yields the single progressive record of lines 92-97. -/
def classifyFormats (env : Env) (data : Playback) (d : ItemDict)
    (u format_id : String) : List FormatRecord :=
  let ext := determine_ext u
  if ext = "f4m" then env.extractF4m u format_id
  else if ext = "m3u8" then
    if data.drmProtected then [] else env.extractM3u8 u format_id
  else if ext = "mpd" then env.extractMpd u format_id
  else if ext = "ism" ∨ pyEndsWith u ".ism/Manifest" then []
  else
    [{ url := some u, format_id := some format_id,
       tbr := d.bitrate, filesize := d.fileSize }]

/-- Lines 67-97: the body of `for item in items`.  Non-dicts are skipped;
`video_url = item.get('url')` rebinds the local even when the item is then
skipped; a falsy (`None`/empty) or already-seen url is skipped; the synthetic
`format_id` is built; a candidate failing `_is_valid_url` is skipped; an
accepted candidate is appended to `format_urls` and then classified (each
branch of the source's `elif` chain extends `formats`, factored here as one
`++ classifyFormats ...`). -/
def processItem (env : Env) (protocol : String) (data : Playback)
    (st : ResolveState) (item : PlayItem) : ResolveState :=
  match item with
  | .nonDict _ => st
  | .obj _ d =>
    let st := { st with video_url := some d.url }
    match d.url with
    | none => st
    | some u =>
      if u = "" then st
      else if u ∈ st.format_urls then st
      else
        let format_id := pyLower protocol ++ "-" ++ optStr d.mediaFormat
        if env.isValidUrl u then
          { st with
            format_urls := st.format_urls ++ [u],
            formats := st.formats ++ classifyFormats env data d u format_id }
        else st

/-- Lines 48-97: one iteration of `for protocol in self._PROTOCOLS`.  A 401
is classified by `classify401`; any other fetch failure re-raises unchanged;
on success the local `data` is rebound and the ingested items are folded
through `processItem`. -/
def probeProtocol (env : Env) (st : ResolveState) (protocol : String) :
    Except ResolveError ResolveState :=
  match env.playFetch protocol with
  | .http401 body => .error (classify401 env.geoCountries body)
  | .failure tag => .error (.fetchFailure tag)
  | .ok data =>
      .ok ((ingestItems data.items).foldl
            (processItem env protocol data) { st with data := some data })

/-- The whole protocol loop. -/
def runProbes (env : Env) : Except ResolveError ResolveState :=
  env.protocols.foldlM (probeProtocol env) initState

/-- Lines 98-99: `if not formats and data.get('drmProtected'): raise ...`.
Reading `data` when no protocol iteration ever bound it is an
`UnboundLocalError`; with nonempty `formats` the conjunction short-circuits
and `data` is not read. -/
def drmCheck (st : ResolveState) : Except ResolveError Unit :=
  if st.formats.isEmpty then
    match st.data with
    | none => .error (.uncaughtPython "NameError: data")
    | some d => if d.drmProtected then .error .drmProtected else .ok ()
  else .ok ()

/-- Modelled from the spec: `_sort_formats` (`extractor/common.py`, not under
src/): "Sort/rank the accumulated formats by a standard quality-ranking rule
(higher bitrate preferred ...) — a pure function over the format list ...
deterministic and stable for equal-quality entries (stable by first-seen
order)".  Stable insertion of one record into a list sorted by descending
bitrate. -/
def insertByTbr (f : FormatRecord) : List FormatRecord → List FormatRecord
  | [] => [f]
  | g :: gs =>
    if g.tbr.getD 0 ≤ f.tbr.getD 0 then f :: g :: gs
    else g :: insertByTbr f gs

/-- Modelled from the spec: the full stable ranking pass of `_sort_formats`
(see `insertByTbr`). -/
def sortFormats : List FormatRecord → List FormatRecord
  | [] => []
  | f :: fs => insertByTbr f (sortFormats fs)

/-- Line 121: `asset.get('keywords', '').split(',')`. -/
def categoriesOf (keywords : Option String) : List String :=
  pySplitChar ',' (keywords.getD "")

/-- Lines 102-123: metadata fetch and assembly of the returned dict.
`asset['title']` with a missing key is an uncaught `KeyError`; evaluating
`'url': video_url` with the local never assigned is an
`UnboundLocalError`. -/
def assembleReturn (env : Env) (st : ResolveState) :
    Except ResolveError AssetMetadata :=
  let formats := sortFormats st.formats
  match env.metaFetch with
  | none => .error (.fetchFailure "metadata JSON")
  | some asset =>
    match asset.title with
    | none => .error (.uncaughtPython "KeyError: title")
    | some title =>
      match st.video_url with
      | none => .error (.uncaughtPython "NameError: video_url")
      | some vu =>
        .ok { id := env.videoId,
              url := vu,
              title := title,
              description := asset.description,
              thumbnails := (asset.imageVersions.getD []).map
                (fun v => { id := v.atype, url := v.url }),
              timestamp := asset.timestamp,
              duration := asset.duration,
              view_count := asset.views,
              categories := categoriesOf asset.keywords,
              formats := formats }

/-- `TV2IE._real_extract` end to end: probe all protocols, apply the
empty-and-DRM check, sort, fetch metadata, assemble. -/
def resolve (env : Env) : Except ResolveError AssetMetadata :=
  match runProbes env with
  | .error e => .error e
  | .ok st =>
    match drmCheck st with
    | .error e => .error e
    | .ok _ => assembleReturn env st

/-- The synthetic format id of line 73. -/
def formatIdOf (protocol : String) (d : ItemDict) : String :=
  pyLower protocol ++ "-" ++ optStr d.mediaFormat

/-- Witness environment for C1: three protocols, each answering with a
DRM-protected playback document carrying no items. -/
def envC1 : Env :=
  { videoId := "916509"
    protocols := ["HDS", "HLS", "DASH"]
    geoCountries := ["NO"]
    playFetch := fun _ => .ok { items := .absent, drmProtected := true }
    isValidUrl := fun _ => true
    extractF4m := fun _ _ => []
    extractM3u8 := fun _ _ => []
    extractMpd := fun _ _ => []
    metaFetch := none }

/-- Witness environments for C2: a first protocol that succeeds, a second
whose fetch fails in each of the four classified ways. -/
def envC2Base : Env :=
  { videoId := "916509"
    protocols := ["HDS", "HLS"]
    geoCountries := ["NO"]
    playFetch := fun _ => .ok { items := .absent, drmProtected := false }
    isValidUrl := fun _ => true
    extractF4m := fun _ _ => []
    extractM3u8 := fun _ _ => []
    extractMpd := fun _ _ => []
    metaFetch := none }

def envC2Geo : Env :=
  { envC2Base with
    playFetch := fun q =>
      if q = "HDS" then .ok { items := .absent, drmProtected := false }
      else .http401 (some { code := some "ASSET_PLAYBACK_INVALID_GEO_LOCATION",
                            description := some "geo blocked" }) }

def envC2Auth : Env :=
  { envC2Base with
    playFetch := fun q =>
      if q = "HDS" then .ok { items := .absent, drmProtected := false }
      else .http401 (some { code := some "SESSION_NOT_AUTHENTICATED",
                            description := some "log in" }) }

def envC2Other : Env :=
  { envC2Base with
    playFetch := fun q =>
      if q = "HDS" then .ok { items := .absent, drmProtected := false }
      else .http401 (some { code := some "SOME_OTHER_CODE",
                            description := some "provider text" }) }

def envC2Fail : Env :=
  { envC2Base with
    playFetch := fun q =>
      if q = "HDS" then .ok { items := .absent, drmProtected := false }
      else .failure "HTTP 500" }

/-- A url that hits none of the manifest branches of the `determine_ext`
dispatch: it is classified as a direct progressive candidate. -/
def progressiveUrl (u : String) : Prop :=
  determine_ext u ≠ "f4m" ∧ determine_ext u ≠ "m3u8" ∧
  determine_ext u ≠ "mpd" ∧ determine_ext u ≠ "ism" ∧
  pyEndsWith u ".ism/Manifest" = false

instance (u : String) : Decidable (progressiveUrl u) := by
  unfold progressiveUrl
  infer_instance

/-- How many records of a format list carry exactly the raw url `u`. -/
def urlCount (u : String) (fs : List FormatRecord) : Nat :=
  fs.countP (fun f => f.url == some u)

/-- The manifest expanders of an environment never return a record carrying
the raw url `u` (expanded sub-formats have their own urls). -/
def expandersAvoid (env : Env) (u : String) : Prop :=
  ∀ v fid f,
    (f ∈ env.extractF4m v fid ∨ f ∈ env.extractM3u8 v fid ∨
     f ∈ env.extractMpd v fid) → f.url ≠ some u

/-- The playback document served by both protocols of the C3 witness: one
dict item with a progressive url. -/
def pbC3 : Playback :=
  { items := ItemsField.many [PlayItem.obj true
      ⟨some "http://cdn.example/video.mp4", some "MP4", some 1500, some 100⟩],
    drmProtected := false }

/-- Witness environment for C3: two protocols both return the identical
progressive url. -/
def envC3 : Env :=
  { videoId := "916509"
    protocols := ["HDS", "HLS"]
    geoCountries := ["NO"]
    playFetch := fun _ => .ok pbC3
    isValidUrl := fun _ => true
    extractF4m := fun _ _ => []
    extractM3u8 := fun _ _ => []
    extractMpd := fun _ _ => []
    metaFetch := none }

/-- The loop state left behind by `runProbes envC3`: the duplicated url was
classified only once, by the first protocol. -/
def stC3 : ResolveState :=
  { formats := [{ url := some "http://cdn.example/video.mp4",
                  format_id := some "hds-MP4",
                  tbr := some 1500, filesize := some 100 }],
    format_urls := ["http://cdn.example/video.mp4"],
    data := some pbC3,
    video_url := some (some "http://cdn.example/video.mp4") }

/-- The playback document of the C4 counterexample: one accepted candidate
whose url ends in `/Manifest` but not in `.ism/Manifest`. -/
def pbC4 : Playback :=
  { items := ItemsField.one (PlayItem.obj true
      ⟨some "http://example.com/stream/Manifest", some "MP4", some 1000, none⟩),
    drmProtected := false }

/-- Counterexample environment for C4. -/
def envC4 : Env :=
  { videoId := "916509"
    protocols := ["HDS"]
    geoCountries := ["NO"]
    playFetch := fun _ => .ok pbC4
    isValidUrl := fun _ => true
    extractF4m := fun _ _ => []
    extractM3u8 := fun _ _ => []
    extractMpd := fun _ _ => []
    metaFetch := none }

/-- Witness item for the amended C4: an accepted `ism` candidate. -/
def dIsmC4 : ItemDict :=
  ⟨some "http://cdn.example/video.ism", some "MSS", none, none⟩

/-- Metadata document for the C5 run: present, with a title, so the metadata
fetch itself succeeds. -/
def assetC5 : AssetDoc :=
  { title := some "Some title", description := none, imageVersions := none,
    timestamp := none, duration := none, views := none,
    keywords := some "news,sport" }

/-- C5 input: every probe succeeds but delivers no items, the playback
documents carry no DRM flag, and the metadata fetch succeeds. -/
def envC5 : Env :=
  { videoId := "916509"
    protocols := ["HDS", "HLS", "DASH"]
    geoCountries := ["NO"]
    playFetch := fun _ => .ok { items := .absent, drmProtected := false }
    isValidUrl := fun _ => true
    extractF4m := fun _ _ => []
    extractM3u8 := fun _ _ => []
    extractMpd := fun _ _ => []
    metaFetch := some assetC5 }

/-- The m3u8 candidate item of the C6 witness. -/
def dC6 : ItemDict :=
  ⟨some "http://cdn.example/master.m3u8", some "HLS", none, none⟩

/-- C6 witness environment: the HLS expander returns one sub-stream per
manifest. -/
def envC6 : Env :=
  { videoId := "916509"
    protocols := ["HLS"]
    geoCountries := ["NO"]
    playFetch := fun _ => .ok { items := .one (.obj true dC6),
                                drmProtected := false }
    isValidUrl := fun _ => true
    extractF4m := fun _ _ => []
    extractM3u8 := fun v fid => [⟨some (v ++ "-sub0"), some fid, none, none⟩]
    extractMpd := fun _ _ => []
    metaFetch := none }

/-- DRM-protected playback document for the C6 witness. -/
def pbC6drm : Playback :=
  { items := .one (.obj true dC6), drmProtected := true }

/-- Unprotected playback document for the C6 witness. -/
def pbC6clear : Playback :=
  { items := .one (.obj true dC6), drmProtected := false }

/-- The parse result of one alternate-embed snippet: the `assetId` field of
the relaxed-JSON object (absent when the object lacks it). -/
structure ArticleVideo where
  assetId : Option String
deriving Repr, DecidableEq

/-- Environment of `TV2ArticleIE._real_extract`: the two regex scans of the
fetched page (`data-assetid` attribute values, and the
`TV2ContentboxVideo({...})` call arguments, both in document order, regex
matching by Python's `re` module), the external relaxed-JSON parser
(`_parse_json` with `js_to_json`, `fatal=False`: `none` = parse failure),
and the two Open-Graph lookups. -/
structure ArticleEnv where
  playlistId : String
  legacyMatches : List String
  snippets : List String
  parseVideo : String → Option ArticleVideo
  ogTitle : String
  ogDescription : String

/-- Lines 151-158: the body of the alternate-embed loop for one snippet —
skip when the parse failed (`if not video: continue`), skip when the parsed
object lacks a truthy `assetId` (`if asset:`), else append the id. -/
def snippetStep (parseVideo : String → Option ArticleVideo)
    (acc : List String) (v : String) : List String :=
  match parseVideo v with
  | none => acc
  | some video =>
    match video.assetId with
    | none => acc
    | some a => if a = "" then acc else acc ++ [a]

/-- Lines 146-158: the legacy `data-assetid` scan, and — only when it found
nothing — the alternate `TV2ContentboxVideo` fallback. -/
def articleAssets (env : ArticleEnv) : List String :=
  let assets := env.legacyMatches
  if assets.isEmpty then
    env.snippets.foldl (snippetStep env.parseVideo) assets
  else assets

/-- Modelled from the spec: `remove_end` (`youtube_dl/utils.py`, not under
src/): "page's Open-Graph title with a known site-name suffix stripped if
present". -/
def removeEnd (s tl : String) : String :=
  if pyEndsWith s tl then s.dropRight tl.length else s

/-- The playlist record returned by `TV2ArticleIE._real_extract`
(lines 160-167): one lazily-resolved entry url per discovered asset id. -/
structure ArticlePlaylist where
  id : String
  title : String
  description : String
  entries : List String
deriving Repr, DecidableEq

/-- `TV2ArticleIE._real_extract` end to end. -/
def articleResolve (env : ArticleEnv) : ArticlePlaylist :=
  { id := env.playlistId,
    title := removeEnd env.ogTitle " - TV2.no",
    description := removeEnd env.ogDescription " - TV2.no",
    entries := (articleAssets env).map
      (fun assetId => "http://www.tv2.no/v/" ++ assetId) }

/-- C7 witness: one malformed snippet followed by one well-formed one. -/
def envC7 : ArticleEnv :=
  { playlistId := "6930542"
    legacyMatches := []
    snippets := ["bad", "good"]
    parseVideo := fun v =>
      if v = "good" then some ⟨some "12345"⟩ else none
    ogTitle := "Russen - TV2.no"
    ogDescription := "De fire siktede - TV2.no" }

/-- C8 witness: a full successful resolution whose metadata document has an
empty keywords string. -/
def assetC8 : AssetDoc :=
  { title := some "T", description := none, imageVersions := none,
    timestamp := none, duration := none, views := none, keywords := some "" }

def envC8 : Env :=
  { videoId := "916509"
    protocols := ["HDS"]
    geoCountries := ["NO"]
    playFetch := fun _ => .ok pbC3
    isValidUrl := fun _ => true
    extractF4m := fun _ _ => []
    extractM3u8 := fun _ _ => []
    extractMpd := fun _ _ => []
    metaFetch := some assetC8 }

/-- The record returned by `resolve envC8`. -/
def mdC8 : AssetMetadata :=
  { id := "916509",
    url := some "http://cdn.example/video.mp4",
    title := "T",
    description := none,
    thumbnails := [],
    timestamp := none,
    duration := none,
    view_count := none,
    categories := [""],
    formats := [{ url := some "http://cdn.example/video.mp4",
                  format_id := some "hds-MP4",
                  tbr := some 1500, filesize := some 100 }] }

end TV2

deriving instance DecidableEq for Except

namespace TV2

theorem processItem_eq_obj (env : Env) (p : String) (data : Playback)
    (st : ResolveState) (t : Bool) (d : ItemDict) :
    processItem env p data st (.obj t d) =
      (let st := { st with video_url := some d.url }
       match d.url with
       | none => st
       | some u =>
         if u = "" then st
         else if u ∈ st.format_urls then st
         else if env.isValidUrl u then
           { st with
             format_urls := st.format_urls ++ [u],
             formats := st.formats ++ classifyFormats env data d u (formatIdOf p d) }
         else st) := rfl

/-- `processItem` never touches the binding of the Python local `data`. -/
theorem processItem_data (env : Env) (p : String) (data : Playback)
    (st : ResolveState) (it : PlayItem) :
    (processItem env p data st it).data = st.data := by
  rcases it with t | ⟨t, d⟩
  · rfl
  · rw [processItem_eq_obj]
    rcases d.url with _ | u
    · rfl
    · dsimp only
      split
      · rfl
      · split
        · rfl
        · split <;> rfl

/-- Each `processItem` step either leaves both accumulators unchanged or
appends exactly one fresh, validated url and its classification result. -/
theorem processItem_shape (env : Env) (p : String) (data : Playback)
    (st : ResolveState) (it : PlayItem) :
    ((processItem env p data st it).formats = st.formats ∧
     (processItem env p data st it).format_urls = st.format_urls) ∨
    (∃ t d u, it = .obj t d ∧ d.url = some u ∧ u ≠ "" ∧
      u ∉ st.format_urls ∧ env.isValidUrl u = true ∧
      (processItem env p data st it).formats =
        st.formats ++ classifyFormats env data d u (formatIdOf p d) ∧
      (processItem env p data st it).format_urls = st.format_urls ++ [u]) := by
  rcases it with t | ⟨t, d⟩
  · exact Or.inl ⟨rfl, rfl⟩
  · rw [processItem_eq_obj]
    rcases hu : d.url with _ | u
    · exact Or.inl ⟨rfl, rfl⟩
    · dsimp only
      split
      · exact Or.inl ⟨rfl, rfl⟩
      · split
        · exact Or.inl ⟨rfl, rfl⟩
        · split
          · next hne hmem hval =>
              exact Or.inr ⟨t, d, u, rfl, hu, hne, hmem, hval, rfl, rfl⟩
          · exact Or.inl ⟨rfl, rfl⟩

/-- Urls already recorded as classified stay recorded. -/
theorem processItem_mem_mono (env : Env) (p : String) (data : Playback)
    (st : ResolveState) (it : PlayItem) (u : String)
    (h : u ∈ st.format_urls) :
    u ∈ (processItem env p data st it).format_urls := by
  rcases processItem_shape env p data st it with ⟨-, h2⟩ | ⟨t, d, v, -, -, -, -, -, -, h2⟩ <;>
    rw [h2]
  · exact h
  · exact List.mem_append_left _ h

/-- A dict item carrying a nonempty, valid url leaves that url recorded as
classified, whatever the classification branch did. -/
theorem processItem_mem_self (env : Env) (p : String) (data : Playback)
    (st : ResolveState) (t : Bool) (d : ItemDict) (u : String)
    (hu : d.url = some u) (hne : u ≠ "") (hval : env.isValidUrl u = true) :
    u ∈ (processItem env p data st (.obj t d)).format_urls := by
  rw [processItem_eq_obj, hu]
  dsimp only
  rw [if_neg hne]
  by_cases hmem : u ∈ st.format_urls
  · rw [if_pos hmem]; exact hmem
  · rw [if_neg hmem, if_pos hval]
    exact List.mem_append_right _ (List.mem_singleton.mpr rfl)

/-- `processItem` preserves freedom from duplicates of the seen-url list. -/
theorem processItem_nodup (env : Env) (p : String) (data : Playback)
    (st : ResolveState) (it : PlayItem) (h : st.format_urls.Nodup) :
    (processItem env p data st it).format_urls.Nodup := by
  rcases processItem_shape env p data st it with
    ⟨-, h2⟩ | ⟨t, d, u, -, -, -, hmem, -, -, h2⟩ <;> rw [h2]
  · exact h
  · simp [List.nodup_append, h, hmem]

/-- The item loop of one protocol never touches the `data` binding. -/
theorem foldl_processItem_data (env : Env) (p : String) (data : Playback)
    (its : List PlayItem) (st : ResolveState) :
    (its.foldl (processItem env p data) st).data = st.data := by
  induction its generalizing st with
  | nil => rfl
  | cons it rest ih => rw [List.foldl_cons, ih, processItem_data]

/-- The item loop of one protocol preserves recorded urls. -/
theorem foldl_processItem_mem_mono (env : Env) (p : String) (data : Playback)
    (its : List PlayItem) (st : ResolveState) (u : String)
    (h : u ∈ st.format_urls) :
    u ∈ (its.foldl (processItem env p data) st).format_urls := by
  induction its generalizing st with
  | nil => exact h
  | cons it rest ih =>
      exact ih _ (processItem_mem_mono env p data st it u h)

/-- The item loop of one protocol preserves freedom from duplicates. -/
theorem foldl_processItem_nodup (env : Env) (p : String) (data : Playback)
    (its : List PlayItem) (st : ResolveState) (h : st.format_urls.Nodup) :
    (its.foldl (processItem env p data) st).format_urls.Nodup := by
  induction its generalizing st with
  | nil => exact h
  | cons it rest ih => exact ih _ (processItem_nodup env p data st it h)

/-- After a protocol's item loop, the url of any of its dict items that is
nonempty and valid is recorded as classified. -/
theorem foldl_processItem_mem_self (env : Env) (p : String) (data : Playback)
    (its : List PlayItem) (st : ResolveState) (t : Bool) (d : ItemDict)
    (u : String) (hit : PlayItem.obj t d ∈ its) (hu : d.url = some u)
    (hne : u ≠ "") (hval : env.isValidUrl u = true) :
    u ∈ (its.foldl (processItem env p data) st).format_urls := by
  induction its generalizing st with
  | nil => cases hit
  | cons it rest ih =>
      rcases List.mem_cons.mp hit with heq | htl
      · subst heq
        exact foldl_processItem_mem_mono env p data rest _ u
          (processItem_mem_self env p data st t d u hu hne hval)
      · exact ih _ htl

/-- `probeProtocol` on a protocol whose fetch succeeds. -/
theorem probeProtocol_ok (env : Env) (st : ResolveState) (p : String)
    (pb : Playback) (h : env.playFetch p = .ok pb) :
    probeProtocol env st p =
      .ok ((ingestItems pb.items).foldl (processItem env p pb)
            { st with data := some pb }) := by
  unfold probeProtocol
  rw [h]

/-- Splitting a monadic fold over `Except` at a list concatenation. -/
theorem exceptFoldlM_append {α σ ε : Type} (f : σ → α → Except ε σ)
    (l₁ l₂ : List α) (s : σ) :
    (l₁ ++ l₂).foldlM f s =
      match l₁.foldlM f s with
      | .error e => .error e
      | .ok m => l₂.foldlM f m := by
  induction l₁ generalizing s with
  | nil => rfl
  | cons a as ih =>
      rw [List.cons_append, List.foldlM_cons, List.foldlM_cons]
      cases h : f s a with
      | error e => rfl
      | ok m =>
          show (as ++ l₂).foldlM f m = _
          rw [ih]
          rfl

/-- `probeProtocol` on a protocol whose fetch hits a 401. -/
theorem probeProtocol_http401 (env : Env) (st : ResolveState) (p : String)
    (body : Option ErrorBody) (h : env.playFetch p = .http401 body) :
    probeProtocol env st p = .error (classify401 env.geoCountries body) := by
  unfold probeProtocol
  rw [h]

/-- `probeProtocol` on a protocol whose fetch fails other than with a 401. -/
theorem probeProtocol_failure (env : Env) (st : ResolveState) (p : String)
    (tag : String) (h : env.playFetch p = .failure tag) :
    probeProtocol env st p = .error (.fetchFailure tag) := by
  unfold probeProtocol
  rw [h]

/-- When every fetch of a protocol segment succeeds, the fold over that
segment succeeds. -/
theorem foldlM_probe_all_ok (env : Env) (l : List String) (s : ResolveState)
    (hok : ∀ p ∈ l, ∃ pb, env.playFetch p = .ok pb) :
    ∃ st', l.foldlM (probeProtocol env) s = .ok st' := by
  induction l generalizing s with
  | nil => exact ⟨s, rfl⟩
  | cons p ps ih =>
      obtain ⟨pb, hpb⟩ := hok p (List.mem_cons_self p ps)
      rw [List.foldlM_cons, probeProtocol_ok env s p pb hpb]
      exact ih _ (fun q hq => hok q (List.mem_cons_of_mem p hq))

/-- A successful protocol fold over a nonempty segment leaves `data` bound to
the playback document of one of the probed protocols (in fact the last). -/
theorem foldlM_probe_data (env : Env) (l : List String) :
    ∀ s st', l.foldlM (probeProtocol env) s = .ok st' →
      (l = [] ∧ st' = s) ∨
      ∃ p pb, p ∈ l ∧ env.playFetch p = .ok pb ∧ st'.data = some pb := by
  induction l with
  | nil =>
      intro s st' h
      exact Or.inl ⟨rfl, (Except.ok.inj h).symm⟩
  | cons p ps ih =>
      intro s st' h
      rw [List.foldlM_cons] at h
      right
      cases hf : env.playFetch p with
      | http401 body =>
          rw [probeProtocol_http401 env s p body hf] at h
          exact Except.noConfusion h
      | failure tag =>
          rw [probeProtocol_failure env s p tag hf] at h
          exact Except.noConfusion h
      | ok pb =>
          rw [probeProtocol_ok env s p pb hf] at h
          rcases ih _ _ h with ⟨hps, hst⟩ | ⟨q, pb', hq, hfq, hd⟩
          · refine ⟨p, pb, List.mem_cons_self p ps, hf, ?_⟩
            rw [hst, foldl_processItem_data]
          · exact ⟨q, pb', List.mem_cons_of_mem p hq, hfq, hd⟩

/-- A successful protocol fold preserves recorded urls. -/
theorem foldlM_probe_mem_mono (env : Env) (l : List String) :
    ∀ s st' u, l.foldlM (probeProtocol env) s = .ok st' →
      u ∈ s.format_urls → u ∈ st'.format_urls := by
  induction l with
  | nil =>
      intro s st' u h hu
      rw [← (Except.ok.inj h)]
      exact hu
  | cons p ps ih =>
      intro s st' u h hu
      rw [List.foldlM_cons] at h
      cases hf : env.playFetch p with
      | http401 body =>
          rw [probeProtocol_http401 env s p body hf] at h
          exact Except.noConfusion h
      | failure tag =>
          rw [probeProtocol_failure env s p tag hf] at h
          exact Except.noConfusion h
      | ok pb =>
          rw [probeProtocol_ok env s p pb hf] at h
          exact ih _ _ u h (foldl_processItem_mem_mono env p pb _ _ u hu)

/-- A successful protocol fold preserves freedom from duplicates of the
seen-url list. -/
theorem foldlM_probe_nodup (env : Env) (l : List String) :
    ∀ s st', l.foldlM (probeProtocol env) s = .ok st' →
      s.format_urls.Nodup → st'.format_urls.Nodup := by
  induction l with
  | nil =>
      intro s st' h hnd
      rw [← (Except.ok.inj h)]
      exact hnd
  | cons p ps ih =>
      intro s st' h hnd
      rw [List.foldlM_cons] at h
      cases hf : env.playFetch p with
      | http401 body =>
          rw [probeProtocol_http401 env s p body hf] at h
          exact Except.noConfusion h
      | failure tag =>
          rw [probeProtocol_failure env s p tag hf] at h
          exact Except.noConfusion h
      | ok pb =>
          rw [probeProtocol_ok env s p pb hf] at h
          exact ih _ _ h (foldl_processItem_nodup env p pb _ _ hnd)

/-- After a successful protocol fold, the url of any nonempty, valid dict
item delivered by one of the probed protocols is recorded as classified. -/
theorem foldlM_probe_mem_self (env : Env) (l : List String) :
    ∀ s st', l.foldlM (probeProtocol env) s = .ok st' →
      ∀ p, p ∈ l → ∀ pb, env.playFetch p = .ok pb →
      ∀ t d u, PlayItem.obj t d ∈ ingestItems pb.items → d.url = some u →
      u ≠ "" → env.isValidUrl u = true → u ∈ st'.format_urls := by
  induction l with
  | nil =>
      intro s st' h p hp
      cases hp
  | cons q qs ih =>
      intro s st' h p hp pb hfp t d u hit hu hne hval
      rw [List.foldlM_cons] at h
      rcases List.mem_cons.mp hp with heq | htl
      · subst heq
        rw [probeProtocol_ok env s p pb hfp] at h
        exact foldlM_probe_mem_mono env qs _ st' u h
          (foldl_processItem_mem_self env p pb _ _ t d u hit hu hne hval)
      · cases hf : env.playFetch q with
        | http401 body =>
            rw [probeProtocol_http401 env s q body hf] at h
            exact Except.noConfusion h
        | failure tag =>
            rw [probeProtocol_failure env s q tag hf] at h
            exact Except.noConfusion h
        | ok pb' =>
            rw [probeProtocol_ok env s q pb' hf] at h
            exact ih _ _ h p htl pb hfp t d u hit hu hne hval

/-- C1: for every asset whose accumulated format list is empty after all
protocol probes and whose asset is DRM-protected (every probed playback
document carries the `drmProtected` flag), `resolve` fails with the
DRM-protected error rather than returning a successful result with an empty
formats list. -/
theorem claimC1_drm_empty_fails (env : Env) (st : ResolveState)
    (hne : env.protocols ≠ [])
    (hok : ∀ p ∈ env.protocols,
      ∃ pb, env.playFetch p = .ok pb ∧ pb.drmProtected = true)
    (hrun : runProbes env = .ok st)
    (hempty : st.formats = []) :
    resolve env = .error ResolveError.drmProtected := by
  rcases foldlM_probe_data env env.protocols initState st hrun with
    ⟨hnil, -⟩ | ⟨p, pb, hp, hf, hd⟩
  · exact absurd hnil hne
  · obtain ⟨pb', hf', hdrm⟩ := hok p hp
    rw [hf] at hf'
    have hpbeq : pb = pb' := PlayFetch.ok.inj hf'
    have hck : drmCheck st = .error ResolveError.drmProtected := by
      unfold drmCheck
      rw [hempty, hd, hpbeq]
      simp [hdrm]
    unfold resolve
    rw [hrun]
    dsimp only
    rw [hck]

theorem claimC1_witness : resolve envC1 = .error ResolveError.drmProtected :=
  claimC1_drm_empty_fails envC1
    ⟨[], [], some { items := .absent, drmProtected := true }, none⟩
    (by decide)
    (fun p _ => ⟨{ items := .absent, drmProtected := true }, rfl, rfl⟩)
    rfl rfl

/-- An error raised by the probe of protocol `p` — after a prefix of
protocols whose fetches all succeeded — aborts the whole resolution with
that error. -/
theorem resolve_error_at (env : Env) (ps₁ ps₂ : List String) (p : String)
    (e : ResolveError)
    (hps : env.protocols = ps₁ ++ p :: ps₂)
    (hok : ∀ q ∈ ps₁, ∃ pb, env.playFetch q = .ok pb)
    (herr : ∀ st, probeProtocol env st p = .error e) :
    resolve env = .error e := by
  obtain ⟨mid, hmid⟩ := foldlM_probe_all_ok env ps₁ initState hok
  have hrun : runProbes env = .error e := by
    unfold runProbes
    rw [hps, exceptFoldlM_append, hmid]
    dsimp only
    rw [List.foldlM_cons, herr mid]
    rfl
  unfold resolve
  rw [hrun]

/-- C2: whenever a `play.json` probe fails with HTTP 401 and a JSON error
body, `resolve` classifies the failure by `error.code`: the geo code yields
a geo-restricted failure carrying the provider's configured country set, the
unauthenticated-session code yields a login-required failure, and any other
code yields a provider error whose message is `error.description`; any
non-401 fetch failure propagates unchanged. -/
theorem claimC2_http401_classified (env : Env) (ps₁ ps₂ : List String)
    (p : String)
    (hps : env.protocols = ps₁ ++ p :: ps₂)
    (hok : ∀ q ∈ ps₁, ∃ pb, env.playFetch q = .ok pb) :
    (∀ err, env.playFetch p = .http401 (some err) →
      ((err.code = some "ASSET_PLAYBACK_INVALID_GEO_LOCATION" →
          resolve env = .error (.geoRestricted env.geoCountries)) ∧
       (err.code = some "SESSION_NOT_AUTHENTICATED" →
          resolve env = .error .loginRequired) ∧
       (err.code ≠ some "ASSET_PLAYBACK_INVALID_GEO_LOCATION" →
        err.code ≠ some "SESSION_NOT_AUTHENTICATED" →
        ∀ descr, err.description = some descr →
          resolve env = .error (.providerError descr)))) ∧
    (∀ tag, env.playFetch p = .failure tag →
      resolve env = .error (.fetchFailure tag)) := by
  constructor
  · intro err h401
    refine ⟨fun hgeo => ?_, fun hauth => ?_, fun hng hna descr hdescr => ?_⟩
    · refine resolve_error_at env ps₁ ps₂ p _ hps hok (fun st => ?_)
      rw [probeProtocol_http401 env st p _ h401]
      simp [classify401, hgeo]
    · refine resolve_error_at env ps₁ ps₂ p _ hps hok (fun st => ?_)
      rw [probeProtocol_http401 env st p _ h401]
      simp [classify401, hauth]
    · refine resolve_error_at env ps₁ ps₂ p _ hps hok (fun st => ?_)
      rw [probeProtocol_http401 env st p _ h401]
      simp [classify401, hng, hna, hdescr]
  · intro tag hfail
    refine resolve_error_at env ps₁ ps₂ p _ hps hok (fun st => ?_)
    exact probeProtocol_failure env st p tag hfail

theorem claimC2_witness :
    resolve envC2Geo = .error (.geoRestricted ["NO"]) ∧
    resolve envC2Auth = .error .loginRequired ∧
    resolve envC2Other = .error (.providerError "provider text") ∧
    resolve envC2Fail = .error (.fetchFailure "HTTP 500") := by
  refine ⟨?_, ?_, ?_, ?_⟩
  · exact ((claimC2_http401_classified envC2Geo ["HDS"] [] "HLS" rfl
      (fun q hq => ⟨{ items := .absent, drmProtected := false }, by
        rcases List.mem_singleton.mp hq; decide⟩)).1
      { code := some "ASSET_PLAYBACK_INVALID_GEO_LOCATION",
        description := some "geo blocked" } (by decide)).1 rfl
  · exact ((claimC2_http401_classified envC2Auth ["HDS"] [] "HLS" rfl
      (fun q hq => ⟨{ items := .absent, drmProtected := false }, by
        rcases List.mem_singleton.mp hq; decide⟩)).1
      { code := some "SESSION_NOT_AUTHENTICATED",
        description := some "log in" } (by decide)).2.1 rfl
  · exact ((claimC2_http401_classified envC2Other ["HDS"] [] "HLS" rfl
      (fun q hq => ⟨{ items := .absent, drmProtected := false }, by
        rcases List.mem_singleton.mp hq; decide⟩)).1
      { code := some "SOME_OTHER_CODE",
        description := some "provider text" } (by decide)).2.2
      (by decide) (by decide) "provider text" rfl
  · exact (claimC2_http401_classified envC2Fail ["HDS"] [] "HLS" rfl
      (fun q hq => ⟨{ items := .absent, drmProtected := false }, by
        rcases List.mem_singleton.mp hq; decide⟩)).2 "HTTP 500" (by decide)

theorem urlCount_append (u : String) (a b : List FormatRecord) :
    urlCount u (a ++ b) = urlCount u a + urlCount u b :=
  List.countP_append _ _ _

/-- A progressive url's classification is exactly the one record of lines
92-97. -/
theorem classifyFormats_progressive (env : Env) (data : Playback)
    (d : ItemDict) (u fid : String) (hp : progressiveUrl u) :
    classifyFormats env data d u fid =
      [{ url := some u, format_id := some fid,
         tbr := d.bitrate, filesize := d.fileSize }] := by
  obtain ⟨h1, h2, h3, h4, h5⟩ := hp
  unfold classifyFormats
  rw [if_neg h1, if_neg h2, if_neg h3,
      if_neg (not_or.mpr ⟨h4, by rw [h5]; exact Bool.false_ne_true⟩)]

/-- Classifying a different url contributes no record carrying url `u`, as
long as the expanders avoid `u`. -/
theorem classifyFormats_count_ne (env : Env) (data : Playback) (d : ItemDict)
    (v fid u : String) (hne : v ≠ u) (henv : expandersAvoid env u) :
    urlCount u (classifyFormats env data d v fid) = 0 := by
  unfold urlCount classifyFormats
  dsimp only
  split
  · exact List.countP_eq_zero.mpr
      (fun f hf => by simp [henv v fid f (Or.inl hf)])
  · split
    · split
      · rfl
      · exact List.countP_eq_zero.mpr
          (fun f hf => by simp [henv v fid f (Or.inr (Or.inl hf))])
    · split
      · exact List.countP_eq_zero.mpr
          (fun f hf => by simp [henv v fid f (Or.inr (Or.inr hf))])
      · split
        · rfl
        · simp [List.countP_cons, hne]

/-- One item step preserves the invariant that the number of emitted records
carrying url `u` equals the number of times `u` was classified. -/
theorem processItem_urlCount (env : Env) (p : String) (data : Playback)
    (st : ResolveState) (it : PlayItem) (u : String)
    (hp : progressiveUrl u) (henv : expandersAvoid env u)
    (hinv : urlCount u st.formats = st.format_urls.count u) :
    urlCount u (processItem env p data st it).formats =
      (processItem env p data st it).format_urls.count u := by
  rcases processItem_shape env p data st it with
    ⟨h1, h2⟩ | ⟨t, d, v, -, -, -, -, -, h1, h2⟩
  · rw [h1, h2, hinv]
  · rw [h1, h2, urlCount_append, List.count_append, hinv]
    congr 1
    by_cases hv : v = u
    · subst hv
      rw [classifyFormats_progressive env data d v _ hp]
      simp [urlCount, List.countP_cons, List.count_singleton']
    · rw [classifyFormats_count_ne env data d v _ u hv henv,
          List.count_singleton']
      simp [hv]

/-- The invariant of `processItem_urlCount`, across one protocol's item
loop. -/
theorem foldl_processItem_urlCount (env : Env) (p : String) (data : Playback)
    (its : List PlayItem) (st : ResolveState) (u : String)
    (hp : progressiveUrl u) (henv : expandersAvoid env u)
    (hinv : urlCount u st.formats = st.format_urls.count u) :
    urlCount u (its.foldl (processItem env p data) st).formats =
      (its.foldl (processItem env p data) st).format_urls.count u := by
  induction its generalizing st with
  | nil => exact hinv
  | cons it rest ih =>
      exact ih _ (processItem_urlCount env p data st it u hp henv hinv)

/-- The invariant of `processItem_urlCount`, across the protocol fold. -/
theorem foldlM_probe_urlCount (env : Env) (l : List String) (u : String)
    (hp : progressiveUrl u) (henv : expandersAvoid env u) :
    ∀ s st', l.foldlM (probeProtocol env) s = .ok st' →
      urlCount u s.formats = s.format_urls.count u →
      urlCount u st'.formats = st'.format_urls.count u := by
  induction l with
  | nil =>
      intro s st' h hinv
      rw [← (Except.ok.inj h)]
      exact hinv
  | cons p ps ih =>
      intro s st' h hinv
      rw [List.foldlM_cons] at h
      cases hf : env.playFetch p with
      | http401 body =>
          rw [probeProtocol_http401 env s p body hf] at h
          exact Except.noConfusion h
      | failure tag =>
          rw [probeProtocol_failure env s p tag hf] at h
          exact Except.noConfusion h
      | ok pb =>
          rw [probeProtocol_ok env s p pb hf] at h
          exact ih _ _ h
            (foldl_processItem_urlCount env p pb _ _ u hp henv hinv)

/-- C3: candidate urls are deduplicated by exact raw string match across all
protocol probes — a (progressive) url delivered by any probe, valid and
nonempty, is classified exactly once and yields exactly one emitted
FormatRecord carrying it, however many probes return it; and items with a
missing url are skipped, leaving both accumulators unchanged. -/
theorem claimC3_dedup_exact (env : Env) (st : ResolveState) (u : String)
    (hrun : runProbes env = .ok st)
    (hval : env.isValidUrl u = true)
    (hne : u ≠ "")
    (hp : progressiveUrl u)
    (henv : expandersAvoid env u)
    (hocc : ∃ p, p ∈ env.protocols ∧ ∃ pb, env.playFetch p = .ok pb ∧
      ∃ t d, PlayItem.obj t d ∈ ingestItems pb.items ∧ d.url = some u) :
    st.format_urls.count u = 1 ∧ urlCount u st.formats = 1 ∧
    (∀ p data st' t d, d.url = none →
      (processItem env p data st' (.obj t d)).formats = st'.formats ∧
      (processItem env p data st' (.obj t d)).format_urls =
        st'.format_urls) := by
  obtain ⟨p, hpl, pb, hf, t, d, hit, hu⟩ := hocc
  have hmem : u ∈ st.format_urls :=
    foldlM_probe_mem_self env env.protocols initState st hrun
      p hpl pb hf t d u hit hu hne hval
  have hnd : st.format_urls.Nodup :=
    foldlM_probe_nodup env env.protocols initState st hrun List.nodup_nil
  have hcount : st.format_urls.count u = 1 :=
    List.count_eq_one_of_mem hnd hmem
  have hinv : urlCount u st.formats = st.format_urls.count u :=
    foldlM_probe_urlCount env env.protocols u hp henv initState st hrun rfl
  refine ⟨hcount, by rw [hinv, hcount], ?_⟩
  intro q data st' t' d' hnone
  rw [processItem_eq_obj, hnone]
  exact ⟨rfl, rfl⟩

theorem claimC3_witness :
    stC3.format_urls.count "http://cdn.example/video.mp4" = 1 ∧
    urlCount "http://cdn.example/video.mp4" stC3.formats = 1 := by
  have h := claimC3_dedup_exact envC3 stC3 "http://cdn.example/video.mp4"
    (by decide) rfl (by decide) (by decide)
    (fun v fid f hmem => by
      rcases hmem with hmem | hmem | hmem <;>
        exact absurd hmem (List.not_mem_nil f))
    ⟨"HDS", by decide, pbC3, rfl, true,
      ⟨some "http://cdn.example/video.mp4", some "MP4", some 1500, some 100⟩,
      by decide, rfl⟩
  exact ⟨h.1, h.2.1⟩

/-- C4 counterexample: an accepted candidate whose url ends in `/Manifest`
(but not in `.ism/Manifest`) is NOT dropped — it contributes exactly one
emitted FormatRecord, because line 89 tests `endswith('.ism/Manifest')`, not
`endswith('/Manifest')`, and the url's extension is not `ism`. -/
theorem claimC4_counterexample :
    pyEndsWith "http://example.com/stream/Manifest" "/Manifest" = true ∧
    determine_ext "http://example.com/stream/Manifest" ≠ "ism" ∧
    (runProbes envC4).map
      (fun st => urlCount "http://example.com/stream/Manifest" st.formats) =
      .ok 1 := by
  decide

/-- C4 (amended): an accepted candidate whose url has extension `ism`, or
whose url ends in `.ism/Manifest` (and whose extension is none of the
manifest extensions `f4m`/`m3u8`/`mpd`, which line 81's `elif` chain tests
first), is silently dropped and contributes no FormatRecord. -/
theorem claimC4_ism_dropped (env : Env) (p : String) (data : Playback)
    (st : ResolveState) (t : Bool) (d : ItemDict) (u : String)
    (hu : d.url = some u)
    (hdrop : determine_ext u = "ism" ∨
      (pyEndsWith u ".ism/Manifest" = true ∧ determine_ext u ≠ "f4m" ∧
       determine_ext u ≠ "m3u8" ∧ determine_ext u ≠ "mpd")) :
    (processItem env p data st (.obj t d)).formats = st.formats := by
  have hclass : ∀ fid, classifyFormats env data d u fid = [] := by
    intro fid
    rcases hdrop with h | ⟨hm, h1, h2, h3⟩
    · simp [classifyFormats, h]
    · simp [classifyFormats, h1, h2, h3, hm]
  rcases processItem_shape env p data st (.obj t d) with
    ⟨h1, -⟩ | ⟨t', d', u', heq, hu', -, -, -, h1, -⟩
  · exact h1
  · injection heq with ht hd
    subst hd
    rw [hu] at hu'
    obtain rfl : u = u' := Option.some.inj hu'
    rw [h1, hclass]
    exact List.append_nil _

theorem claimC4_witness :
    (processItem envC4 "HDS" pbC4 initState (.obj true dIsmC4)).formats =
      initState.formats :=
  claimC4_ism_dropped envC4 "HDS" pbC4 initState true dIsmC4
    "http://cdn.example/video.ism" rfl (Or.inl (by decide))

/-- C5: evaluating the code on an asset where no probe yields any item and
no DRM flag is set: the empty-and-DRM check passes and the metadata fetch
succeeds, but building the return dict evaluates `'url': video_url` with the
Python local `video_url` never assigned (the item loop never ran), so
`_real_extract` raises `UnboundLocalError` instead of returning an
`AssetMetadata` with an empty formats list. -/
theorem claimC5_unbound_video_url :
    resolve envC5 = .error (.uncaughtPython "NameError: video_url") := by
  decide

/-- C6: an accepted candidate with extension `m3u8` delegates to HLS
manifest expansion exactly when the current playback document does not mark
the asset DRM-protected; a DRM-protected m3u8 candidate contributes zero
formats (while still being recorded as seen). -/
theorem claimC6_m3u8_drm_gate (env : Env) (p : String) (data : Playback)
    (st : ResolveState) (t : Bool) (d : ItemDict) (u : String)
    (hu : d.url = some u) (hne : u ≠ "") (hmem : u ∉ st.format_urls)
    (hval : env.isValidUrl u = true) (hext : determine_ext u = "m3u8") :
    (processItem env p data st (.obj t d)).formats =
      st.formats ++ (if data.drmProtected then []
        else env.extractM3u8 u (formatIdOf p d)) ∧
    (processItem env p data st (.obj t d)).format_urls =
      st.format_urls ++ [u] := by
  have h1 : determine_ext u ≠ "f4m" := by rw [hext]; decide
  have hc : classifyFormats env data d u (formatIdOf p d) =
      if data.drmProtected then []
      else env.extractM3u8 u (formatIdOf p d) := by
    unfold classifyFormats
    rw [if_neg h1, if_pos hext]
  rw [processItem_eq_obj, hu]
  dsimp only
  rw [if_neg hne, if_neg hmem, if_pos hval]
  exact ⟨congrArg (st.formats ++ ·) hc, rfl⟩

theorem claimC6_witness :
    (processItem envC6 "HLS" pbC6drm initState (.obj true dC6)).formats =
      initState.formats ++ (if pbC6drm.drmProtected then []
        else envC6.extractM3u8 "http://cdn.example/master.m3u8"
          (formatIdOf "HLS" dC6)) ∧
    (processItem envC6 "HLS" pbC6clear initState (.obj true dC6)).formats =
      initState.formats ++ (if pbC6clear.drmProtected then []
        else envC6.extractM3u8 "http://cdn.example/master.m3u8"
          (formatIdOf "HLS" dC6)) ∧
    (processItem envC6 "HLS" pbC6drm initState (.obj true dC6)).formats = [] ∧
    (processItem envC6 "HLS" pbC6clear initState (.obj true dC6)).formats =
      [⟨some "http://cdn.example/master.m3u8-sub0", some "hls-HLS",
        none, none⟩] := by
  refine ⟨?_, ?_, by decide, by decide⟩
  · exact (claimC6_m3u8_drm_gate envC6 "HLS" pbC6drm initState true dC6
      "http://cdn.example/master.m3u8" rfl (by decide) (by decide) rfl
      (by decide)).1
  · exact (claimC6_m3u8_drm_gate envC6 "HLS" pbC6clear initState true dC6
      "http://cdn.example/master.m3u8" rfl (by decide) (by decide) rfl
      (by decide)).1

/-- A malformed snippet — one whose parse fails or whose object lacks a
truthy `assetId` — contributes nothing. -/
theorem snippetStep_skip (parseVideo : String → Option ArticleVideo)
    (acc : List String) (v : String)
    (h : parseVideo v = none ∨
      ∃ vid, parseVideo v = some vid ∧
        (vid.assetId = none ∨ vid.assetId = some "")) :
    snippetStep parseVideo acc v = acc := by
  unfold snippetStep
  rcases h with h | ⟨vid, h, hid⟩
  · rw [h]
  · rw [h]
    dsimp only
    rcases hid with hid | hid
    · rw [hid]
    · rw [hid]
      rfl

/-- C7: with zero legacy-pattern matches the resolver falls back to the
alternate embed pattern, folding over every snippet; a snippet that fails to
parse or lacks the `assetId` field is skipped without affecting the
extraction of the other snippets. -/
theorem claimC7_fallback_skips_malformed (env : ArticleEnv)
    (hleg : env.legacyMatches = []) :
    articleAssets env = env.snippets.foldl (snippetStep env.parseVideo) [] ∧
    (∀ pre v post, env.snippets = pre ++ v :: post →
      (env.parseVideo v = none ∨
       ∃ vid, env.parseVideo v = some vid ∧
         (vid.assetId = none ∨ vid.assetId = some "")) →
      articleAssets env =
        articleAssets { env with snippets := pre ++ post }) := by
  have hbase : ∀ l, articleAssets { env with snippets := l } =
      l.foldl (snippetStep env.parseVideo) [] := by
    intro l
    unfold articleAssets
    rw [hleg]
    rfl
  constructor
  · have := hbase env.snippets
    exact this
  · intro pre v post hsplit hbad
    have h1 := hbase env.snippets
    rw [hsplit] at h1
    rw [show env = { env with snippets := env.snippets } from rfl, hsplit]
    rw [hbase (pre ++ v :: post), hbase (pre ++ post)]
    rw [List.foldl_append, List.foldl_append, List.foldl_cons]
    rw [snippetStep_skip env.parseVideo _ v hbad]

theorem claimC7_witness :
    articleAssets envC7 = ["12345"] ∧
    articleAssets envC7 =
      articleAssets { envC7 with snippets := ["good"] } := by
  have h := claimC7_fallback_skips_malformed envC7 rfl
  refine ⟨?_, h.2 [] "bad" ["good"] rfl (Or.inl (by decide))⟩
  rw [h.1]
  decide

/-- A successful resolution read the categories off the comma-split keywords
of the fetched metadata document. -/
theorem resolve_ok_categories (env : Env) (md : AssetMetadata)
    (h : resolve env = .ok md) :
    ∃ asset, env.metaFetch = some asset ∧
      md.categories = categoriesOf asset.keywords := by
  unfold resolve at h
  cases hrp : runProbes env with
  | error e => rw [hrp] at h; exact Except.noConfusion h
  | ok st =>
      rw [hrp] at h
      dsimp only at h
      cases hck : drmCheck st with
      | error e => rw [hck] at h; exact Except.noConfusion h
      | ok u0 =>
          rw [hck] at h
          dsimp only at h
          unfold assembleReturn at h
          cases hm : env.metaFetch with
          | none => rw [hm] at h; exact Except.noConfusion h
          | some asset =>
              rw [hm] at h
              dsimp only at h
              cases ht : asset.title with
              | none => rw [ht] at h; exact Except.noConfusion h
              | some title =>
                  rw [ht] at h
                  dsimp only at h
                  cases hv : st.video_url with
                  | none => rw [hv] at h; exact Except.noConfusion h
                  | some vu =>
                      rw [hv] at h
                      dsimp only at h
                      refine ⟨asset, rfl, ?_⟩
                      rw [← Except.ok.inj h]

/-- C8: the categories of a successfully resolved asset are the comma-split
of the metadata document's keywords string, and an absent or empty keywords
string yields the single-element list containing the empty string. -/
theorem claimC8_keywords_split (env : Env) (asset : AssetDoc)
    (md : AssetMetadata) (hm : env.metaFetch = some asset)
    (h : resolve env = .ok md) :
    md.categories = categoriesOf asset.keywords ∧
    ((asset.keywords = none ∨ asset.keywords = some "") →
      md.categories = [""]) := by
  obtain ⟨asset', hm', hcat⟩ := resolve_ok_categories env md h
  rw [hm] at hm'
  obtain rfl := Option.some.inj hm'
  refine ⟨hcat, fun hk => ?_⟩
  rw [hcat]
  rcases hk with hk | hk <;> rw [categoriesOf, hk] <;> rfl

theorem claimC8_witness : mdC8.categories = [""] :=
  (claimC8_keywords_split envC8 assetC8 mdC8 rfl (by decide)).2 (Or.inr rfl)

/-- C9: the `playback.items.item` value is normalized to a list before
iteration — an absent value, a falsy single value and the empty list all
contribute no items, a truthy single object becomes the singleton list, a
list is iterated as-is — and non-dict entries are skipped unchanged. -/
theorem claimC9_items_normalized (env : Env) :
    ingestItems .absent = [] ∧
    (∀ it, it.falsy = false → ingestItems (.one it) = [it]) ∧
    (∀ it, it.falsy = true → ingestItems (.one it) = []) ∧
    (∀ l, ingestItems (.many l) = l) ∧
    (∀ p data st t, processItem env p data st (.nonDict t) = st) ∧
    (∀ p pb st, env.playFetch p = .ok pb → pb.items = .absent →
      probeProtocol env st p = .ok { st with data := some pb }) := by
  refine ⟨rfl, ?_, ?_, fun l => rfl, fun p data st t => rfl, ?_⟩
  · intro it h
    simp [ingestItems, h]
  · intro it h
    simp [ingestItems, h]
  · intro p pb st hf hit
    rw [probeProtocol_ok env st p pb hf, hit]
    rfl

theorem claimC9_witness :
    ingestItems (.one (.obj true dC6)) = [.obj true dC6] ∧
    probeProtocol envC1 initState "HDS" =
      .ok { initState with
            data := some { items := .absent, drmProtected := true } } := by
  have h := claimC9_items_normalized envC1
  exact ⟨h.2.1 _ rfl, h.2.2.2.2.2 "HDS" _ initState rfl rfl⟩

/-- C10: once a candidate url passes the validity pre-check it is appended
to the seen-url list — whatever its classification contributed, even zero
formats — membership there persists, and a successful run classifies each
distinct url at most once (the seen-url list never holds duplicates). -/
theorem claimC10_classified_once (env : Env) :
    (∀ st, runProbes env = .ok st → st.format_urls.Nodup) ∧
    (∀ p data st t d u, d.url = some u → u ≠ "" → u ∉ st.format_urls →
      env.isValidUrl u = true →
      (processItem env p data st (.obj t d)).format_urls =
        st.format_urls ++ [u]) ∧
    (∀ p data st it u, u ∈ st.format_urls →
      u ∈ (processItem env p data st it).format_urls) := by
  refine ⟨?_, ?_, ?_⟩
  · intro st h
    exact foldlM_probe_nodup env env.protocols initState st h List.nodup_nil
  · intro p data st t d u hu hne hmem hval
    rw [processItem_eq_obj, hu]
    dsimp only
    rw [if_neg hne, if_neg hmem, if_pos hval]
  · intro p data st it u h
    exact processItem_mem_mono env p data st it u h

theorem claimC10_witness :
    (⟨[], [], some { items := .absent, drmProtected := true }, none⟩ :
      ResolveState).format_urls.Nodup ∧
    ResolveState.format_urls
      (processItem envC1 "HDS" { items := .absent, drmProtected := true }
        initState
        (.obj true ⟨some "http://cdn.example/a.mp4", none, none, none⟩)) =
      initState.format_urls ++ ["http://cdn.example/a.mp4"] := by
  have h := claimC10_classified_once envC1
  exact ⟨h.1 _ rfl,
    h.2.1 "HDS" { items := .absent, drmProtected := true } initState true
      ⟨some "http://cdn.example/a.mp4", none, none, none⟩
      "http://cdn.example/a.mp4" rfl (by decide) (by decide) rfl⟩

end TV2
